import Mathlib

/-!
# Verification of the thoughtPolice analysis core

A shallow embedding, in Lean 4, of the two core modules of the repository:

* `src/lib/services/analysisService.ts` — the analysis orchestrator
  (`analyzeUser`, `calculateWeightedConfidence`, `analyzeUserStream`,
  `analyzeBatch`);
* `src/lib/services/redditApi.ts` — the paginated ingestion engine
  (`iterateComments`, `iteratePosts`).

JavaScript numbers are modelled as exact rationals (`ℚ`), `Math.round x` as
`⌊x + 1/2⌋` (which is what `Math.round` computes, ties towards `+∞`).
Network effects are modelled by explicit oracles (environments) passed to the
embedded functions: each `fetch`/`await` point reads its outcome from the
oracle, so a function that catches every error becomes a total Lean function.
-/

/-- JavaScript `Math.round`: `⌊x + 1/2⌋` (round half towards positive
infinity). -/
def jsRound (q : ℚ) : ℤ := ⌊q + 1/2⌋

/-- JavaScript `String.prototype.trim()`: drop whitespace from both ends.
Implemented on the character list so that it evaluates by kernel reduction. -/
def jsTrim (s : String) : String :=
  ⟨((s.data.dropWhile Char.isWhitespace).reverse.dropWhile Char.isWhitespace).reverse⟩

/-- `replace(/^u\//, '')`: strip one leading `u/` from a username. -/
def stripUserTag (s : String) : String :=
  match s.data with
  | 'u' :: '/' :: rest => ⟨rest⟩
  | _ => s

/-- `username.trim().replace(/^u\//, '')` — the normalisation applied to a
target name throughout `analysisService.ts`. -/
def cleanName (s : String) : String := stripUserTag (jsTrim s)

/-!
## Findings and `calculateWeightedConfidence`

`analysisService.ts`, lines 102–139.  A finding (contradiction) is an opaque
scoring-pipeline payload; the fields the aggregation reads are
`confidenceScore` (a number, possibly absent), `verified` (truthy flag) and
`dates` (an array of statement timestamps; the code converts the first two to
epoch milliseconds — we carry the millisecond values directly).
-/

structure Finding where
  confidenceScore : Option ℚ
  verified : Bool
  dates : List ℚ
deriving DecidableEq

/-- `const confidenceScore = contradiction.confidenceScore || 50;`
`||` substitutes 50 for every falsy value: an absent field *and* a present
score equal to `0`. -/
def effConfidence (f : Finding) : ℚ :=
  match f.confidenceScore with
  | none => 50
  | some c => if c = 0 then 50 else c

/-- The verification factor of a finding's weight: `×1.5` when `verified` is
truthy, `×1` otherwise. -/
def verifiedFactor (f : Finding) : ℚ := if f.verified then 1.5 else 1

/-- The recency factor of a finding's weight: when at least two statement
timestamps are present, the age in days of their midpoint decides `×1.3`
(age < 30), `×0.8` (age > 365) or `×1`; with fewer than two timestamps the
factor is `×1`. -/
def recencyFactor (nowMs : ℚ) (f : Finding) : ℚ :=
  match f.dates with
  | d0 :: d1 :: _ =>
    let avgDate := (d0 + d1) / 2
    let ageInDays := (nowMs - avgDate) / (24 * 60 * 60 * 1000)
    if ageInDays < 30 then 1.3 else if ageInDays > 365 then 0.8 else 1
  | _ => 1

/-- The weight of one finding, accumulated exactly as the `for` loop body of
`calculateWeightedConfidence` does: start at 1, `×1.5` if verified, the
recency adjustment, and finally `× (confidenceScore / 100)` with the falsy
default applied to the score. -/
def findingWeight (nowMs : ℚ) (f : Finding) : ℚ :=
  let w1 : ℚ := 1
  let w2 := if f.verified then w1 * 1.5 else w1
  let w3 :=
    match f.dates with
    | d0 :: d1 :: _ =>
      let avgDate := (d0 + d1) / 2
      let ageInDays := (nowMs - avgDate) / (24 * 60 * 60 * 1000)
      if ageInDays < 30 then w2 * 1.3 else if ageInDays > 365 then w2 * 0.8 else w2
    | _ => w2
  w3 * (effConfidence f / 100)

/-- `calculateWeightedConfidence`: 0 for the empty list, otherwise
`Math.round(weightedSum / totalWeight)` where the loop accumulates
`weightedSum += confidenceScore * weight` and `totalWeight += weight`
(the accumulations are written as sums over the list, which is what the
left-to-right loop computes in exact arithmetic). -/
def calculateWeightedConfidence (nowMs : ℚ) (contradictions : List Finding) : ℤ :=
  if contradictions = [] then 0
  else
    jsRound ((contradictions.map fun c => effConfidence c * findingWeight nowMs c).sum /
             (contradictions.map fun c => findingWeight nowMs c).sum)

/-- The weight formula as §4.7 of the spec words it, amended only in the
confidence default: a product of the verification factor, the recency factor
and `score/100`, where 50 is substituted for an absent *or zero* score. -/
def specWeight (nowMs : ℚ) (f : Finding) : ℚ :=
  verifiedFactor f * recencyFactor nowMs f * (effConfidence f / 100)

/-- The confidence default exactly as the claim words it: 50 substituted
*only when the score is absent* (a present 0 stays 0). -/
def specConfidenceAbsentOnly (f : Finding) : ℚ := f.confidenceScore.getD 50

/-- The weight formula exactly as the claim words it, with the absent-only
default. -/
def specWeightAbsentOnly (nowMs : ℚ) (f : Finding) : ℚ :=
  verifiedFactor f * recencyFactor nowMs f * (specConfidenceAbsentOnly f / 100)

/-- The aggregate exactly as the claim words it (absent-only default),
for comparison against `calculateWeightedConfidence`. -/
def specAggregateAbsentOnly (nowMs : ℚ) (cs : List Finding) : ℤ :=
  if cs = [] then 0
  else
    jsRound ((cs.map fun c => specConfidenceAbsentOnly c * specWeightAbsentOnly nowMs c).sum /
             (cs.map fun c => specWeightAbsentOnly nowMs c).sum)

/-! ### Helper lemmas about the aggregation -/

theorem effConfidence_ne_zero (f : Finding) : effConfidence f ≠ 0 := by
  unfold effConfidence
  rcases f.confidenceScore with _ | c
  · norm_num
  · dsimp only
    split
    · norm_num
    · assumption

theorem verifiedFactor_pos (f : Finding) : 0 < verifiedFactor f := by
  unfold verifiedFactor
  split <;> norm_num

theorem recencyFactor_pos (nowMs : ℚ) (f : Finding) : 0 < recencyFactor nowMs f := by
  unfold recencyFactor
  rcases f.dates with _ | ⟨d0, _ | ⟨d1, rest⟩⟩ <;> dsimp only <;> try norm_num
  split
  · norm_num
  · split <;> norm_num

theorem findingWeight_factored (nowMs : ℚ) (f : Finding) :
    findingWeight nowMs f = verifiedFactor f * recencyFactor nowMs f * (effConfidence f / 100) := by
  unfold findingWeight verifiedFactor recencyFactor
  rcases f.dates with _ | ⟨d0, _ | ⟨d1, rest⟩⟩ <;> cases hv : f.verified <;>
    dsimp only <;> split_ifs <;> ring

theorem findingWeight_ne_zero (nowMs : ℚ) (f : Finding) : findingWeight nowMs f ≠ 0 := by
  rw [findingWeight_factored]
  exact mul_ne_zero (mul_ne_zero (verifiedFactor_pos f).ne' (recencyFactor_pos nowMs f).ne')
    (div_ne_zero (effConfidence_ne_zero f) (by norm_num))

theorem effConfidence_bounds (f : Finding)
    (h : ∀ c, f.confidenceScore = some c → 0 ≤ c ∧ c ≤ 100) :
    0 < effConfidence f ∧ effConfidence f ≤ 100 := by
  unfold effConfidence
  rcases hc : f.confidenceScore with _ | c
  · norm_num
  · dsimp only
    rcases h c hc with ⟨h0, h100⟩
    split
    · norm_num
    · exact ⟨lt_of_le_of_ne h0 (Ne.symm (by assumption)), h100⟩

theorem findingWeight_pos (nowMs : ℚ) (f : Finding)
    (h : ∀ c, f.confidenceScore = some c → 0 ≤ c ∧ c ≤ 100) :
    0 < findingWeight nowMs f := by
  rw [findingWeight_factored]
  exact mul_pos (mul_pos (verifiedFactor_pos f) (recencyFactor_pos nowMs f))
    (div_pos (effConfidence_bounds f h).1 (by norm_num))

theorem sum_map_const_mul {α : Type} (l : List α) (g : α → ℚ) (c : ℚ) :
    (l.map fun x => c * g x).sum = c * (l.map g).sum := by
  induction l with
  | nil => simp
  | cons a t ih => simp [ih, mul_add]

theorem jsRound_nonneg {q : ℚ} (h : 0 ≤ q) : 0 ≤ jsRound q := by
  unfold jsRound
  exact Int.le_floor.mpr (by push_cast; linarith)

theorem jsRound_le_hundred {q : ℚ} (h : q ≤ 100) : jsRound q ≤ 100 := by
  unfold jsRound
  have : ⌊q + 1/2⌋ < 101 := Int.floor_lt.mpr (by push_cast; linarith)
  omega

/-- The aggregate over a one-element list is the (falsy-defaulted) confidence
score of that element, rounded: the weight cancels. -/
theorem calc_singleton (nowMs : ℚ) (f : Finding) :
    calculateWeightedConfidence nowMs [f] = jsRound (effConfidence f) := by
  unfold calculateWeightedConfidence
  rw [if_neg (by simp)]
  simp only [List.map_cons, List.map_nil, List.sum_cons, List.sum_nil, add_zero]
  rw [mul_div_assoc, div_self (findingWeight_ne_zero nowMs f), mul_one]

/-! ### Claims C2, C3, C4, C10 -/

/-- **C2.** `calculateWeightedConfidence` maps the empty findings list to 0;
for every findings list whose (present) confidence scores lie in [0, 100] the
result lies in [0, 100]; and the result is invariant under permuting the
input list. -/
theorem weightedConfidence_algebraic (nowMs : ℚ) :
    calculateWeightedConfidence nowMs [] = 0
    ∧ (∀ cs : List Finding,
        (∀ f ∈ cs, ∀ c, f.confidenceScore = some c → 0 ≤ c ∧ c ≤ 100) →
        0 ≤ calculateWeightedConfidence nowMs cs ∧ calculateWeightedConfidence nowMs cs ≤ 100)
    ∧ (∀ cs cs' : List Finding, cs.Perm cs' →
        calculateWeightedConfidence nowMs cs = calculateWeightedConfidence nowMs cs') := by
  refine ⟨rfl, ?_, ?_⟩
  · intro cs hr
    rcases eq_or_ne cs [] with h | h
    · subst h
      simp [calculateWeightedConfidence]
    · have hwpos : ∀ f ∈ cs, 0 < findingWeight nowMs f :=
        fun f hf => findingWeight_pos nowMs f (hr f hf)
      have heff : ∀ f ∈ cs, 0 < effConfidence f ∧ effConfidence f ≤ 100 :=
        fun f hf => effConfidence_bounds f (hr f hf)
      have hW : 0 < (cs.map fun c => findingWeight nowMs c).sum := by
        refine List.sum_pos _ ?_ (by simpa using h)
        intro x hx
        rcases List.mem_map.mp hx with ⟨f, hf, rfl⟩
        exact hwpos f hf
      have hS0 : 0 ≤ (cs.map fun c => effConfidence c * findingWeight nowMs c).sum := by
        refine List.sum_nonneg ?_
        intro x hx
        rcases List.mem_map.mp hx with ⟨f, hf, rfl⟩
        exact le_of_lt (mul_pos (heff f hf).1 (hwpos f hf))
      have hS100 : (cs.map fun c => effConfidence c * findingWeight nowMs c).sum ≤
          100 * (cs.map fun c => findingWeight nowMs c).sum := by
        rw [← sum_map_const_mul]
        refine List.sum_le_sum ?_
        intro f hf
        exact mul_le_mul_of_nonneg_right (heff f hf).2 (le_of_lt (hwpos f hf))
      unfold calculateWeightedConfidence
      rw [if_neg h]
      constructor
      · exact jsRound_nonneg (div_nonneg hS0 (le_of_lt hW))
      · exact jsRound_le_hundred ((div_le_iff₀ hW).mpr (by linarith))
  · intro cs cs' hp
    rcases eq_or_ne cs [] with h | h
    · subst h
      rw [hp.symm.eq_nil]
    · have h' : cs' ≠ [] := fun hh => h (by rw [hh] at hp; exact hp.eq_nil)
      unfold calculateWeightedConfidence
      rw [if_neg h, if_neg h', ((hp.map _).sum_eq), ((hp.map _).sum_eq)]

/-- Witness for C2 at concrete inputs: a singleton list with score 80 is in
bounds, and swapping a two-element list does not change the aggregate. -/
theorem weightedConfidence_algebraic_witness :
    (0 ≤ calculateWeightedConfidence 0 [⟨some 80, true, []⟩]
      ∧ calculateWeightedConfidence 0 [⟨some 80, true, []⟩] ≤ 100)
    ∧ calculateWeightedConfidence 0 [⟨some 20, false, []⟩, ⟨some 90, true, []⟩]
      = calculateWeightedConfidence 0 [⟨some 90, true, []⟩, ⟨some 20, false, []⟩] :=
  ⟨(weightedConfidence_algebraic 0).2.1 [⟨some 80, true, []⟩]
      (by
        intro f hf c hc
        rcases List.mem_singleton.mp hf with rfl
        rcases Option.some.inj hc with rfl
        norm_num),
    (weightedConfidence_algebraic 0).2.2 _ _
      (List.Perm.swap (⟨some 90, true, []⟩ : Finding) (⟨some 20, false, []⟩ : Finding) [])⟩

/-- **C3, counterexample.** A one-element findings list whose finding carries
the *present* confidence score 0 aggregates to 50, not to the finding's own
score 0 (`jsRound 0`): the claim "the aggregate equals that single finding's
own confidenceScore" fails at this input. -/
theorem singleton_zero_score_cex :
    calculateWeightedConfidence 0 [⟨some 0, false, []⟩] = 50
    ∧ calculateWeightedConfidence 0 [⟨some 0, false, []⟩] ≠ jsRound 0 := by
  have h := calc_singleton 0 ⟨some 0, false, []⟩
  have he : effConfidence ⟨some 0, false, []⟩ = 50 := by norm_num [effConfidence]
  rw [he] at h
  have h50 : jsRound 50 = 50 := by norm_num [jsRound]
  have h0 : jsRound 0 = 0 := by norm_num [jsRound]
  rw [h, h50]
  exact ⟨rfl, by rw [h0]; norm_num⟩

/-- **C3 (amended).** For every one-element findings list the aggregate equals
that finding's *effective* confidence score — its `confidenceScore` with 50
substituted when absent or zero — rounded, regardless of the weight the
finding receives; e.g. a finding with score 80, verified, no timestamps,
aggregates to 80. -/
theorem singleton_aggregate (nowMs : ℚ) (f : Finding) :
    calculateWeightedConfidence nowMs [f] = jsRound (effConfidence f)
    ∧ calculateWeightedConfidence nowMs [⟨some 80, true, []⟩] = 80 := by
  refine ⟨calc_singleton nowMs f, ?_⟩
  rw [calc_singleton]
  norm_num [effConfidence, jsRound]

/-- **C4, counterexample.** With the confidence default applied only to an
*absent* score (the claim's wording), the two-element list
`[score 0, score 100]` would aggregate to 100; the code aggregates it to 83,
because the present 0 is also replaced by 50 both in the average and in the
weight. -/
theorem weight_formula_cex :
    specAggregateAbsentOnly 0 [⟨some 0, false, []⟩, ⟨some 100, false, []⟩] = 100
    ∧ calculateWeightedConfidence 0 [⟨some 0, false, []⟩, ⟨some 100, false, []⟩] = 83
    ∧ specAggregateAbsentOnly 0 [⟨some 0, false, []⟩, ⟨some 100, false, []⟩]
      ≠ calculateWeightedConfidence 0 [⟨some 0, false, []⟩, ⟨some 100, false, []⟩] := by
  have h1 : specAggregateAbsentOnly 0 [⟨some 0, false, []⟩, ⟨some 100, false, []⟩] = 100 := by
    unfold specAggregateAbsentOnly
    rw [if_neg (by simp)]
    norm_num [specWeightAbsentOnly, specConfidenceAbsentOnly, verifiedFactor, recencyFactor,
      jsRound]
  have h2 : calculateWeightedConfidence 0 [⟨some 0, false, []⟩, ⟨some 100, false, []⟩] = 83 := by
    unfold calculateWeightedConfidence
    rw [if_neg (by simp)]
    norm_num [findingWeight, effConfidence, jsRound]
  exact ⟨h1, h2, by rw [h1, h2]; norm_num⟩

/-- **C4 (amended).** Every finding's weight is the product of the verification
factor (×1.5 when verified), the recency factor (×1.3 / ×0.8 / ×1 by the
midpoint age of two present timestamps) and `score/100`, where 50 is
substituted for an *absent or zero* score; and the aggregate over a non-empty
list is `round(Σ(score × weight) / Σ(weight))` with the same substitution. -/
theorem weight_and_aggregate_formula (nowMs : ℚ) (f : Finding) (cs : List Finding)
    (hcs : cs ≠ []) :
    findingWeight nowMs f = specWeight nowMs f
    ∧ calculateWeightedConfidence nowMs cs =
        jsRound ((cs.map fun c => effConfidence c * specWeight nowMs c).sum /
                 (cs.map fun c => specWeight nowMs c).sum) := by
  constructor
  · rw [findingWeight_factored]
    rfl
  · unfold calculateWeightedConfidence
    rw [if_neg hcs]
    have hw : ∀ c : Finding, findingWeight nowMs c = specWeight nowMs c :=
      fun c => by rw [findingWeight_factored]; rfl
    simp only [hw]

/-- Witness for C4 at a concrete input. -/
theorem weight_and_aggregate_formula_witness :
    findingWeight 0 ⟨some 80, true, []⟩ = specWeight 0 ⟨some 80, true, []⟩
    ∧ calculateWeightedConfidence 0 [⟨none, false, []⟩] =
        jsRound ((([⟨none, false, []⟩] : List Finding).map
            fun c => effConfidence c * specWeight 0 c).sum /
          (([⟨none, false, []⟩] : List Finding).map fun c => specWeight 0 c).sum) :=
  weight_and_aggregate_formula 0 ⟨some 80, true, []⟩ [⟨none, false, []⟩]
    (List.cons_ne_nil _ _)

/-- **C10.** A finding whose `confidenceScore` field is present but equal to 0
is treated as 50 — the `|| 50` default applies to every falsy value, not only
to an absent field — so it contributes 50 both as the value being averaged and
inside the weight factor, and a one-element list with score 0 aggregates
to 50, not 0. -/
theorem zero_score_defaults_to_fifty (nowMs : ℚ) (f : Finding)
    (h : f.confidenceScore = some 0) :
    effConfidence f = 50
    ∧ findingWeight nowMs f = verifiedFactor f * recencyFactor nowMs f * (50 / 100)
    ∧ calculateWeightedConfidence nowMs [f] = 50 := by
  have he : effConfidence f = 50 := by
    unfold effConfidence
    rw [h]
    norm_num
  refine ⟨he, ?_, ?_⟩
  · rw [findingWeight_factored, he]
  · rw [calc_singleton, he]
    norm_num [jsRound]

/-- Witness for C10 at a concrete finding. -/
theorem zero_score_defaults_to_fifty_witness :
    effConfidence ⟨some 0, true, []⟩ = 50
    ∧ findingWeight 0 ⟨some 0, true, []⟩ =
        verifiedFactor ⟨some 0, true, []⟩ * recencyFactor 0 ⟨some 0, true, []⟩ * (50 / 100)
    ∧ calculateWeightedConfidence 0 [⟨some 0, true, []⟩] = 50 :=
  zero_score_defaults_to_fifty 0 ⟨some 0, true, []⟩ rfl

/-!
## The paginated ingestion engine (`redditApi.ts`)

`iterateComments` (lines 118–190) and `iteratePosts` (lines 193–260) are
async generators: a `while` loop that fetches one listing page per
iteration, filters and maps its children, yields non-empty batches, follows
the pagination cursors and stops on `maxItems`, on the `maxRequests`
circuit breaker, on end of pagination, on a malformed/empty page, or on a
fetch error (the `catch` turns the error into a `break`).

The upstream is modelled as an oracle `pages : Nat → PageOutcome ρ` giving
the outcome of the n-th page fetch of the run.  The generator denotes the
pair (list of yielded batches, number of page fetches performed); yielding
is total, so "no exception escapes the generator" is a fact of the type.
The loop is written with a fuel argument one larger than `maxRequests`,
which the request ceiling keeps from ever running out.
-/

/-- The outcome of one page fetch: the request rejects (after the retry
client gives up), the JSON has no `data`/`children` (or an empty children
array — the code breaks on both alike), or a proper page with children and
the two pagination cursors. -/
inductive PageOutcome (ρ : Type)
  | fetchError
  | noData
  | page (children : List ρ) (after : Option String) (before : Option String)

/-- JavaScript truthiness of a pagination cursor: absent (`null`/`undefined`)
and the empty string are falsy. -/
def cursorTruthy : Option String → Bool
  | none => false
  | some s => !(s = "")

/-- A raw comment as delivered by the listing endpoint (`child.data`).
`body` is `Option`al: the filter's `comment.body &&` truthiness test treats
an absent body like a falsy one. -/
structure RawComment where
  id : String
  body : Option String
  created_utc : ℚ
  subreddit : String
  score : ℤ
  permalink : String
  author : String
  link_title : Option String
deriving DecidableEq

/-- The typed comment record the generator yields. -/
structure RedditComment where
  id : String
  body : String
  created_utc : ℚ
  subreddit : String
  score : ℤ
  permalink : String
  author : String
  link_title : Option String
deriving DecidableEq

/-- A raw post (`child.data` of `submitted.json`). -/
structure RawPost where
  id : String
  title : String
  selftext : Option String
  created_utc : ℚ
  subreddit : String
  score : ℤ
  permalink : String
  author : String
  num_comments : Nat
deriving DecidableEq

/-- The typed post record the generator yields. -/
structure RedditPost where
  id : String
  title : String
  selftext : String
  created_utc : ℚ
  subreddit : String
  score : ℤ
  permalink : String
  author : String
  num_comments : Nat
deriving DecidableEq

/-- The comment filter-and-map of `iterateComments`: keep a comment whose
body is present and truthy, is neither `'[deleted]'` nor `'[removed]'`,
is longer than 20 characters, and whose `created_utc` is at least the age
cutoff. -/
def commentKeep (cutoffDate : ℚ) (c : RawComment) : Option RedditComment :=
  match c.body with
  | none => none
  | some b =>
    if b ≠ "" ∧ b ≠ "[deleted]" ∧ b ≠ "[removed]" ∧ 20 < b.length ∧ cutoffDate ≤ c.created_utc
    then some ⟨c.id, b, c.created_utc, c.subreddit, c.score, c.permalink, c.author, c.link_title⟩
    else none

/-- The post filter-and-map of `iteratePosts` (same validity test, on
`selftext`). -/
def postKeep (cutoffDate : ℚ) (p : RawPost) : Option RedditPost :=
  match p.selftext with
  | none => none
  | some b =>
    if b ≠ "" ∧ b ≠ "[deleted]" ∧ b ≠ "[removed]" ∧ 20 < b.length ∧ cutoffDate ≤ p.created_utc
    then some ⟨p.id, p.title, b, p.created_utc, p.subreddit, p.score, p.permalink, p.author,
      p.num_comments⟩
    else none

/-- One generator `while` loop, common to `iterateComments`
(`useBefore = true`: the break test is `!after && !before`) and
`iteratePosts` (`useBefore = false`: the break test is `!after`).
Arguments after the ceiling: fuel, next fetch index, `totalFetched`,
`requestCount`.  Returns (yielded batches, page fetches performed). -/
def pageLoop {ρ α : Type} [DecidableEq ρ] [DecidableEq α] (keep : ρ → Option α)
    (useBefore : Bool) (pages : Nat → PageOutcome ρ) (maxItems maxRequests : Nat) :
    Nat → Nat → Nat → Nat → List (List α) × Nat
  | 0, i, _, _ => ([], i)
  | fuel + 1, i, tot, rc =>
    if tot < maxItems ∧ rc < maxRequests then
      match pages i with
      | PageOutcome.fetchError => ([], i + 1)
      | PageOutcome.noData => ([], i + 1)
      | PageOutcome.page children after before =>
        if children = [] then ([], i + 1)
        else
          let batch := children.filterMap keep
          let yielded := if batch = [] then ([] : List (List α)) else [batch]
          if cursorTruthy after = false ∧ (useBefore = true → cursorTruthy before = false) then
            (yielded, i + 1)
          else
            let r := pageLoop keep useBefore pages maxItems maxRequests fuel (i + 1)
              (tot + batch.length) (rc + 1)
            (yielded ++ r.1, r.2)
    else ([], i)

/-- `iterateComments(username, {maxItems, maxAge})`: request ceiling 50,
`cutoffDate = Date.now()/1000 - maxAge*24*60*60`. -/
def iterateComments (pages : Nat → PageOutcome RawComment) (maxItems : Nat) (maxAge nowMs : ℚ) :
    List (List RedditComment) × Nat :=
  pageLoop (commentKeep (nowMs / 1000 - maxAge * (24 * 60 * 60))) true pages maxItems 50
    51 0 0 0

/-- `iteratePosts(username, {maxItems, maxAge})`: request ceiling 20, same
cutoff, only the `after` cursor is followed. -/
def iteratePosts (pages : Nat → PageOutcome RawPost) (maxItems : Nat) (maxAge nowMs : ℚ) :
    List (List RedditPost) × Nat :=
  pageLoop (postKeep (nowMs / 1000 - maxAge * (24 * 60 * 60))) false pages maxItems 20
    21 0 0 0

/-! ### Helper lemmas about the loop -/

theorem listAppendKeepsPre {α : Type} {l1 l2 : List α} (l : List α) (h : l1 <+: l2) :
    l ++ l1 <+: l ++ l2 := by
  rcases h with ⟨t, ht⟩
  exact ⟨t, by rw [List.append_assoc, ht]⟩

/-- Every batch the loop returns is non-empty and consists of records that
survive `keep`. -/
theorem pageLoop_batches {ρ α : Type} [DecidableEq ρ] [DecidableEq α] (keep : ρ → Option α)
    (useBefore : Bool) (pages : Nat → PageOutcome ρ) (maxItems maxRequests : Nat) :
    ∀ (fuel i tot rc : Nat) (b : List α),
      b ∈ (pageLoop keep useBefore pages maxItems maxRequests fuel i tot rc).1 →
      b ≠ [] ∧ ∀ r ∈ b, ∃ raw, keep raw = some r := by
  intro fuel
  induction fuel with
  | zero =>
    intro i tot rc b hb
    simp [pageLoop] at hb
  | succ fuel ih =>
    intro i tot rc b hb
    rw [pageLoop] at hb
    split at hb
    · split at hb
      · simp at hb
      · simp at hb
      · split at hb
        · simp at hb
        · dsimp only at hb
          split at hb
          · -- pagination break: hb : b ∈ yielded
            split at hb
            · simp at hb
            · rename_i hbatch
              rcases List.mem_singleton.mp hb with rfl
              refine ⟨hbatch, ?_⟩
              intro r hr
              rcases List.mem_filterMap.mp hr with ⟨raw, _, hk⟩
              exact ⟨raw, hk⟩
          · -- continue: hb : b ∈ yielded ++ rest
            rcases List.mem_append.mp hb with hb' | hb'
            · split at hb'
              · simp at hb'
              · rename_i hbatch
                rcases List.mem_singleton.mp hb' with rfl
                refine ⟨hbatch, ?_⟩
                intro r hr
                rcases List.mem_filterMap.mp hr with ⟨raw, _, hk⟩
                exact ⟨raw, hk⟩
            · exact ih _ _ _ _ hb'
    · simp at hb

/-- The loop performs at most `maxRequests` page fetches beyond the fetches
already counted. -/
theorem pageLoop_count {ρ α : Type} [DecidableEq ρ] [DecidableEq α] (keep : ρ → Option α)
    (useBefore : Bool) (pages : Nat → PageOutcome ρ) (maxItems maxRequests : Nat) :
    ∀ (fuel i tot rc : Nat), rc ≤ maxRequests →
      (pageLoop keep useBefore pages maxItems maxRequests fuel i tot rc).2 ≤
        i + (maxRequests - rc) := by
  intro fuel
  induction fuel with
  | zero =>
    intro i tot rc _
    simp [pageLoop]
  | succ fuel ih =>
    intro i tot rc hrc
    rw [pageLoop]
    split
    · rename_i hg
      split
      · omega
      · omega
      · split
        · omega
        · dsimp only
          split
          · dsimp only
            omega
          · dsimp only
            exact le_trans (ih (i + 1) _ (rc + 1) (by omega)) (by omega)
    · omega

/-- Runs of the loop over two oracles that agree on every index below `k`,
the second failing from `k` on, yield a prefix: the failing run returns
exactly an initial segment of the batches of the unfailed run. -/
theorem pageLoop_failure_pre {ρ α : Type} [DecidableEq ρ] [DecidableEq α] (keep : ρ → Option α)
    (useBefore : Bool) (pages pages2 : Nat → PageOutcome ρ) (maxItems maxRequests k : Nat)
    (hlow : ∀ j, j < k → pages2 j = pages j)
    (hhigh : ∀ j, k ≤ j → pages2 j = PageOutcome.fetchError) :
    ∀ (fuel i tot rc : Nat),
      (pageLoop keep useBefore pages2 maxItems maxRequests fuel i tot rc).1 <+:
        (pageLoop keep useBefore pages maxItems maxRequests fuel i tot rc).1 := by
  intro fuel
  induction fuel with
  | zero =>
    intro i tot rc
    simp [pageLoop]
  | succ fuel ih =>
    intro i tot rc
    rw [pageLoop, pageLoop]
    by_cases hg : tot < maxItems ∧ rc < maxRequests
    · rw [if_pos hg, if_pos hg]
      by_cases hik : i < k
      · rw [hlow i hik]
        split
        · exact ⟨[], rfl⟩
        · exact ⟨[], rfl⟩
        · split
          · exact ⟨[], rfl⟩
          · dsimp only
            split
            · exact ⟨[], List.append_nil _⟩
            · exact listAppendKeepsPre _ (ih _ _ _)
      · rw [hhigh i (by omega)]
        exact ⟨_, List.nil_append _⟩
    · rw [if_neg hg, if_neg hg]


/-- What surviving `commentKeep` means for the yielded record. -/
theorem commentKeep_sound (cutoffDate : ℚ) (raw : RawComment) (r : RedditComment)
    (h : commentKeep cutoffDate raw = some r) :
    r.body ≠ "" ∧ r.body ≠ "[deleted]" ∧ r.body ≠ "[removed]" ∧ 20 < r.body.length ∧
    cutoffDate ≤ r.created_utc := by
  obtain ⟨i, body, cu, sr, sc, pl, au, lt⟩ := raw
  rcases body with _ | b
  · simp [commentKeep] at h
  · unfold commentKeep at h
    dsimp only at h
    split at h
    · rcases Option.some.inj h with rfl
      rename_i hcond
      exact hcond
    · simp at h

/-- What surviving `postKeep` means for the yielded record. -/
theorem postKeep_sound (cutoffDate : ℚ) (raw : RawPost) (r : RedditPost)
    (h : postKeep cutoffDate raw = some r) :
    r.selftext ≠ "" ∧ r.selftext ≠ "[deleted]" ∧ r.selftext ≠ "[removed]" ∧
    20 < r.selftext.length ∧ cutoffDate ≤ r.created_utc := by
  obtain ⟨i, ti, body, cu, sr, sc, pl, au, nc⟩ := raw
  rcases body with _ | b
  · simp [postKeep] at h
  · unfold postKeep at h
    dsimp only at h
    split at h
    · rcases Option.some.inj h with rfl
      rename_i hcond
      exact hcond
    · simp at h

/-- A raw comment every filter clause rejects (a deleted body). -/
def exBadRaw : RawComment := ⟨"b1", some "[deleted]", 1, "sub", 0, "perm", "alice", none⟩

/-- A raw comment that passes the filter (21-character body, recent). -/
def exGoodRaw : RawComment := ⟨"g1", some "abcdefghijklmnopqrstu", 1, "sub", 0, "perm", "alice", none⟩

/-- The record `exGoodRaw` maps to. -/
def exGoodComment : RedditComment :=
  ⟨"g1", "abcdefghijklmnopqrstu", 1, "sub", 0, "perm", "alice", none⟩

/-- A three-page oracle: an entirely-filtered page, a page with one valid
comment, then end of data.  The first page yields nothing but still counts
one fetch. -/
def exPages : Nat → PageOutcome RawComment
  | 0 => PageOutcome.page [exBadRaw] (some "t1") none
  | 1 => PageOutcome.page [exGoodRaw] (some "t2") none
  | _ + 2 => PageOutcome.noData

/-- Running `iterateComments` over `exPages` (cutoff 0): one batch, three
page fetches — the all-filtered first page was not yielded but consumed a
request. -/
theorem exPages_run : iterateComments exPages 100 0 0 = ([[exGoodComment]], 3) := by
  have hc : (0 : ℚ) / 1000 - 0 * (24 * 60 * 60) = 0 := by norm_num
  unfold iterateComments
  rw [hc]
  decide

/-- **C5.** Every batch yielded by `iterateComments` or `iteratePosts` is
non-empty and contains only records whose body text is present (non-empty),
is neither `'[deleted]'` nor `'[removed]'`, has length strictly greater
than 20, and whose `created_utc` is at least the configured age cutoff;
and (`exPages_run` conjunct) a page whose records are all filtered out
yields nothing to the consumer but still counts toward the request
ceiling: over `exPages` the all-filtered first page produces no batch, yet
three fetches are counted. -/
theorem ingestion_yields_only_valid :
    (∀ (pages : Nat → PageOutcome RawComment) (maxItems : Nat) (maxAge nowMs : ℚ)
      (b : List RedditComment), b ∈ (iterateComments pages maxItems maxAge nowMs).1 →
      b ≠ [] ∧ ∀ r ∈ b, r.body ≠ "" ∧ r.body ≠ "[deleted]" ∧ r.body ≠ "[removed]" ∧
        20 < r.body.length ∧ nowMs / 1000 - maxAge * (24 * 60 * 60) ≤ r.created_utc)
    ∧ (∀ (pages : Nat → PageOutcome RawPost) (maxItems : Nat) (maxAge nowMs : ℚ)
      (b : List RedditPost), b ∈ (iteratePosts pages maxItems maxAge nowMs).1 →
      b ≠ [] ∧ ∀ r ∈ b, r.selftext ≠ "" ∧ r.selftext ≠ "[deleted]" ∧ r.selftext ≠ "[removed]" ∧
        20 < r.selftext.length ∧ nowMs / 1000 - maxAge * (24 * 60 * 60) ≤ r.created_utc)
    ∧ iterateComments exPages 100 0 0 = ([[exGoodComment]], 3) := by
  refine ⟨?_, ?_, exPages_run⟩
  · intro pages maxItems maxAge nowMs b hb
    rcases pageLoop_batches _ true pages maxItems 50 51 0 0 0 b hb with ⟨hne, hall⟩
    refine ⟨hne, ?_⟩
    intro r hr
    rcases hall r hr with ⟨raw, hk⟩
    exact commentKeep_sound _ raw r hk
  · intro pages maxItems maxAge nowMs b hb
    rcases pageLoop_batches _ false pages maxItems 20 21 0 0 0 b hb with ⟨hne, hall⟩
    refine ⟨hne, ?_⟩
    intro r hr
    rcases hall r hr with ⟨raw, hk⟩
    exact postKeep_sound _ raw r hk

/-- Witness for C5: the batch yielded over the concrete oracle `exPages` is
non-empty and valid. -/
theorem ingestion_yields_only_valid_witness :
    [exGoodComment] ≠ [] ∧ ∀ r ∈ [exGoodComment], r.body ≠ "" ∧ r.body ≠ "[deleted]" ∧
      r.body ≠ "[removed]" ∧ 20 < r.body.length ∧
      (0 : ℚ) / 1000 - 0 * (24 * 60 * 60) ≤ r.created_utc :=
  ingestion_yields_only_valid.1 exPages 100 0 0 [exGoodComment]
    (by rw [exPages_run]; exact List.mem_singleton.mpr rfl)

/-- **C6.** For every upstream behaviour — including an endpoint that always
returns items and never signals end of pagination — `iterateComments`
performs at most 50 page fetches and `iteratePosts` at most 20 before the
generator terminates (the `requestCount < maxRequests` circuit breaker). -/
theorem ingestion_request_ceiling (pages : Nat → PageOutcome RawComment)
    (ppages : Nat → PageOutcome RawPost) (maxItemsC maxItemsP : Nat) (maxAge nowMs : ℚ) :
    (iterateComments pages maxItemsC maxAge nowMs).2 ≤ 50
    ∧ (iteratePosts ppages maxItemsP maxAge nowMs).2 ≤ 20 := by
  constructor
  · have h := pageLoop_count (commentKeep (nowMs / 1000 - maxAge * (24 * 60 * 60))) true pages
      maxItemsC 50 51 0 0 0 (by omega)
    simpa [iterateComments] using h
  · have h := pageLoop_count (postKeep (nowMs / 1000 - maxAge * (24 * 60 * 60))) false ppages
      maxItemsP 20 21 0 0 0 (by omega)
    simpa [iteratePosts] using h

/-- A one-good-page oracle whose every later fetch fails. -/
def exFailPages : Nat → PageOutcome RawComment
  | 0 => PageOutcome.page [exGoodRaw] (some "t1") none
  | _ + 1 => PageOutcome.fetchError

/-- The unfailed continuation of `exFailPages`: the same first page, then
end of data. -/
def exOkPages : Nat → PageOutcome RawComment
  | 0 => PageOutcome.page [exGoodRaw] (some "t1") none
  | _ + 1 => PageOutcome.noData

/-- **C7.** If a page fetch fails mid-stream, the generators end normally —
they are total functions into (batches, fetch count), so no exception
reaches the consumer — and deliver exactly an initial segment of the batches
of the fault-free run: for oracles that agree below the failure index `k`
and fail from `k` on, the failing run's batches are a prefix of the
unfailed run's.  The concrete conjunct shows a batch yielded before the
failure is still delivered: over `exFailPages` (good page 0, every later
fetch failing) the run returns that one batch, terminating after 2 fetches. -/
theorem ingestion_failure_partial (k : Nat)
    (pages pages2 : Nat → PageOutcome RawComment)
    (ppages ppages2 : Nat → PageOutcome RawPost)
    (maxItems : Nat) (maxAge nowMs : ℚ)
    (hlowC : ∀ j, j < k → pages2 j = pages j)
    (hhighC : ∀ j, k ≤ j → pages2 j = PageOutcome.fetchError)
    (hlowP : ∀ j, j < k → ppages2 j = ppages j)
    (hhighP : ∀ j, k ≤ j → ppages2 j = PageOutcome.fetchError) :
    (iterateComments pages2 maxItems maxAge nowMs).1 <+:
      (iterateComments pages maxItems maxAge nowMs).1
    ∧ (iteratePosts ppages2 maxItems maxAge nowMs).1 <+:
      (iteratePosts ppages maxItems maxAge nowMs).1
    ∧ iterateComments exFailPages 100 0 0 = ([[exGoodComment]], 2) := by
  refine ⟨?_, ?_, ?_⟩
  · exact pageLoop_failure_pre _ true pages pages2 maxItems 50 k hlowC hhighC 51 0 0 0
  · exact pageLoop_failure_pre _ false ppages ppages2 maxItems 20 k hlowP hhighP 21 0 0 0
  · have hc : (0 : ℚ) / 1000 - 0 * (24 * 60 * 60) = 0 := by norm_num
    unfold iterateComments
    rw [hc]
    decide

/-- A post oracle: end of data at once. -/
def exOkPosts : Nat → PageOutcome RawPost := fun _ => PageOutcome.noData

/-- A post oracle agreeing with `exOkPosts` on fetch 0 and failing after. -/
def exFailPosts : Nat → PageOutcome RawPost
  | 0 => PageOutcome.noData
  | _ + 1 => PageOutcome.fetchError

/-- Witness for C7: `exFailPages` agrees with `exOkPages` below 1 and fails
from fetch 1 on; its batches are a prefix of the fault-free run's. -/
theorem ingestion_failure_partial_witness :
    ((iterateComments exFailPages 100 0 0).1 <+: (iterateComments exOkPages 100 0 0).1)
    ∧ ((iteratePosts exFailPosts 100 0 0).1 <+: (iteratePosts exOkPosts 100 0 0).1)
    ∧ iterateComments exFailPages 100 0 0 = ([[exGoodComment]], 2) :=
  ingestion_failure_partial 1 exOkPages exFailPages exOkPosts exFailPosts 100 0 0
    (by
      intro j hj
      interval_cases j
      rfl)
    (by
      intro j hj
      cases j with
      | zero => omega
      | succ n => rfl)
    (fun j hj => by
      interval_cases j
      rfl)
    (by
      intro j hj
      cases j with
      | zero => omega
      | succ n => rfl)

/-!
## The analysis orchestrator (`analysisService.ts`)

`analyzeUser` validates the username, normalises it, checks the budget
status (a log-only advisory — modelled but unused), POSTs to
`/api/analyze`, parses the response, aggregates the confidence and returns
a `completed` Analysis; its `catch` converts *any* thrown error into a
`failed` Analysis whose summary embeds the error message.

The single server interaction is modelled by a `FetchOutcome` oracle:
either the fetch itself rejects with a message, or it returns a response
with an `ok` flag, a status code, and a body whose JSON parse either fails
(`Except.error msg` — `await response.json()` throwing) or produces a
`RawReport`.  On a non-ok response the code reads the body's `error` field
(falling back to `'Unknown error'` when the parse fails, and to
`'Analysis failed with status N'` when the field is falsy) and throws it.
`analyzeUserCore` is the `try` block, returning `Except.error msg` exactly
where the code throws `new Error(msg)`; `analyzeUser` is the whole
function, total by construction: the `catch` is the `Except.error` match
arm.
-/

inductive AnalysisStatus
  | completed
  | failed
deriving DecidableEq

/-- The `stats` object of a report. -/
structure ReportStats where
  totalComments : Nat
  timespan : String
  topSubreddits : List String
  sentimentTrend : ℚ
deriving DecidableEq

/-- A parsed `/api/analyze` response body (also used for the error body of a
non-ok response: `errorField` models its `error` property). -/
structure RawReport where
  summary : String
  contradictions : Option (List Finding)
  errorField : Option String
  timeline : List String
  stats : ReportStats
deriving DecidableEq

deriving instance DecidableEq for Except

/-- The outcome of the one `fetch('/api/analyze')` call. -/
inductive FetchOutcome
  | netError (msg : String)
  | response (ok : Bool) (status : Nat) (body : Except String RawReport)
deriving DecidableEq

/-- The environment of one `analyzeUser` run: the server oracle, the budget
advisory flag (worth only a `console.warn`), and `Date.now()`. -/
structure AnalyzeEnv where
  outcome : FetchOutcome
  budgetIsWarning : Bool
  nowMs : ℚ
deriving DecidableEq

/-- The `Analysis` record. -/
structure Analysis where
  id : String
  targetUsername : String
  analyzerUserId : String
  contradictionsFound : Nat
  confidenceScore : ℤ
  analysisDate : ℚ
  reportData : RawReport
  status : AnalysisStatus
deriving DecidableEq

/-- The `try` block of `analyzeUser`: `Except.error msg` wherever the code
throws `new Error(msg)`. -/
def analyzeUserCore (env : AnalyzeEnv) (username analyzerUserId : String) :
    Except String Analysis :=
  if username = "" ∨ jsTrim username = "" then Except.error "Username is required"
  else
    let cleanUsername := cleanName username
    match env.outcome with
    | FetchOutcome.netError msg => Except.error msg
    | FetchOutcome.response ok status body =>
      if ok = false then
        match body with
        | Except.error _ => Except.error "Unknown error"
        | Except.ok errorData =>
          match errorData.errorField with
          | some e =>
            if e = "" then Except.error ("Analysis failed with status " ++ toString status)
            else Except.error e
          | none => Except.error ("Analysis failed with status " ++ toString status)
      else
        match body with
        | Except.error msg => Except.error msg
        | Except.ok reportData =>
          let contradictions := reportData.contradictions.getD []
          Except.ok
            { id := "analysis-" ++ toString env.nowMs ++ "-" ++ cleanUsername
              targetUsername := cleanUsername
              analyzerUserId := analyzerUserId
              contradictionsFound := contradictions.length
              confidenceScore := calculateWeightedConfidence env.nowMs contradictions
              analysisDate := env.nowMs
              reportData := reportData
              status := AnalysisStatus.completed }

/-- The Analysis the `catch` block builds: status `failed`, zero findings,
zero confidence, the error message embedded into the summary, and the
original (un-normalised) username. -/
def failedAnalysis (env : AnalyzeEnv) (username analyzerUserId msg : String) : Analysis :=
  { id := "analysis-failed-" ++ toString env.nowMs
    targetUsername := username
    analyzerUserId := analyzerUserId
    contradictionsFound := 0
    confidenceScore := 0
    analysisDate := env.nowMs
    reportData :=
      { summary := "Analysis failed: " ++ msg
        contradictions := some []
        errorField := none
        timeline := []
        stats := ⟨0, "0 days", [], 0⟩ }
    status := AnalysisStatus.failed }

/-- `analyzeUser`: the `try` body with every thrown error converted to a
`failed` Analysis.  Total — an exception can never reach the caller. -/
def analyzeUser (env : AnalyzeEnv) (username analyzerUserId : String) : Analysis :=
  match analyzeUserCore env username analyzerUserId with
  | Except.ok a => a
  | Except.error msg => failedAnalysis env username analyzerUserId msg

/-- **C1.** `analyzeUser` never throws or rejects — it is a total function
into `Analysis` for every environment — and on any internal failure
(validation, network fetch, scoring, or response parsing: every path on
which `analyzeUserCore` is `Except.error msg`) it resolves with an Analysis
whose status is `failed`, whose `contradictionsFound` is 0, whose
`confidenceScore` is 0, and whose report summary is
`"Analysis failed: " ++ msg`, which contains the error message. -/
theorem analyzeUser_error_as_data (env : AnalyzeEnv) (username analyzerUserId msg : String)
    (h : analyzeUserCore env username analyzerUserId = Except.error msg) :
    (analyzeUser env username analyzerUserId).status = AnalysisStatus.failed
    ∧ (analyzeUser env username analyzerUserId).contradictionsFound = 0
    ∧ (analyzeUser env username analyzerUserId).confidenceScore = 0
    ∧ (analyzeUser env username analyzerUserId).reportData.summary =
        "Analysis failed: " ++ msg := by
  unfold analyzeUser
  rw [h]
  exact ⟨rfl, rfl, rfl, rfl⟩

/-- A mocked 404 upstream: non-ok response whose error body says the user
does not exist. -/
def env404 : AnalyzeEnv :=
  ⟨FetchOutcome.response false 404
      (Except.ok ⟨"", none, some "User not found", [], ⟨0, "0 days", [], 0⟩⟩),
    false, 0⟩

/-- Witness for C1: `analyzeUser("nonexistent_user_xyz")` against the mocked
404 upstream yields a `failed` Analysis with zero findings, zero confidence
and the failure reason in the summary. -/
theorem analyzeUser_error_as_data_witness :
    (analyzeUser env404 "nonexistent_user_xyz" "1").status = AnalysisStatus.failed
    ∧ (analyzeUser env404 "nonexistent_user_xyz" "1").contradictionsFound = 0
    ∧ (analyzeUser env404 "nonexistent_user_xyz" "1").confidenceScore = 0
    ∧ (analyzeUser env404 "nonexistent_user_xyz" "1").reportData.summary =
        "Analysis failed: " ++ "User not found" :=
  analyzeUser_error_as_data env404 "nonexistent_user_xyz" "1" "User not found" rfl

/-!
## The progress stream (`analyzeUserStream`)

The generator first yields `validation 0`, then inside its `try`:
`validateUsername` (total: its own `catch` returns `false`; the oracle
supplies its Boolean), throwing `'User not found'` when invalid — the only
throw the `try` can see, since `getUserPreview` and `analyzeUser` both
swallow their errors — then `validation 100`, `fetching 0`,
`fetching 50 (preview)`, `analyzing 0`, `analyzing 100 (report)`,
`complete 100 (report)`; the `catch` yields `error 0 (message)`.
The denotation is the full list of yielded events.
-/

/-- The value `getUserPreview` resolves with (it is total: on any failure it
returns the absent-shaped sentinel, so the stream's `try` never sees it
throw).  The oracle supplies the resolved value. -/
structure UserPreview where
  userFound : Bool
  karma : ℤ
  accountAge : String
  recentActivity : Bool
  estimatedComments : Nat
deriving DecidableEq

/-- The `data` payload of a progress event. -/
inductive EventData
  | preview (p : UserPreview)
  | report (r : RawReport)
  | errMsg (msg : String)
deriving DecidableEq

/-- One `{stage, progress, data?}` progress event. -/
structure StreamEvent where
  stage : String
  progress : Nat
  data : Option EventData
deriving DecidableEq

/-- The environment of one `analyzeUserStream` run: the `validateUsername`
outcome, the `getUserPreview` result, and `analyzeUser`'s environment. -/
structure StreamEnv where
  validateOk : Bool
  previewResult : UserPreview
  analyzeEnv : AnalyzeEnv
deriving DecidableEq

/-- `analyzeUserStream(username)`: the ordered list of events the generator
yields. -/
def analyzeUserStream (env : StreamEnv) (username : String) : List StreamEvent :=
  let cleanUsername := cleanName username
  let first : StreamEvent := ⟨"validation", 0, none⟩
  if env.validateOk then
    let analysis := analyzeUser env.analyzeEnv cleanUsername "1"
    [first, ⟨"validation", 100, none⟩, ⟨"fetching", 0, none⟩,
      ⟨"fetching", 50, some (EventData.preview env.previewResult)⟩,
      ⟨"analyzing", 0, none⟩,
      ⟨"analyzing", 100, some (EventData.report analysis.reportData)⟩,
      ⟨"complete", 100, some (EventData.report analysis.reportData)⟩]
  else
    [first, ⟨"error", 0, some (EventData.errMsg "User not found")⟩]

/-- A server environment whose analysis succeeds (ok response, empty
findings list). -/
def envOk : AnalyzeEnv :=
  ⟨FetchOutcome.response true 200 (Except.ok ⟨"ok", some [], none, [], ⟨0, "0 days", [], 0⟩⟩),
    false, 0⟩

/-- A stream environment for a valid user over `envOk`. -/
def streamEnvOk : StreamEnv := ⟨true, ⟨true, 1, "1 days", false, 0⟩, envOk⟩

/-- **C8, counterexample.** A successful run terminates in `complete`, emits
`fetching` at progress 50, and never emits `fetching` at progress 100: the
claimed "each of the first three stages progressing from 0 to 100" fails
for the `fetching` stage, which progresses 0 → 50. -/
theorem stream_fetching_stops_at_fifty_cex :
    ((analyzeUserStream streamEnvOk "alice").map StreamEvent.stage).contains "complete" = true
    ∧ (analyzeUserStream streamEnvOk "alice").any
        (fun e => e.stage == "fetching" && e.progress == 50) = true
    ∧ (analyzeUserStream streamEnvOk "alice").all
        (fun e => !(e.stage == "fetching" && e.progress == 100)) = true := by
  decide

/-- **C8 (amended).** Every event sequence of `analyzeUserStream` is one of
exactly two traces.  When validation succeeds: the strict stage order
`validation, fetching, analyzing, complete`, with `validation` progressing
0→100, `fetching` progressing 0→**50** (carrying the preview at 50, not
reaching 100), `analyzing` progressing 0→100 (carrying the raw report), and
the terminal `complete` event at progress 100 carrying the final report.
When validation fails: the terminal `error` event at progress 0 carrying
the error message, straight after `validation 0`.  In both traces the
terminal event is last — no stage event follows it. -/
theorem stream_protocol (env : StreamEnv) (username : String) :
    (env.validateOk = true →
      analyzeUserStream env username =
        [⟨"validation", 0, none⟩, ⟨"validation", 100, none⟩, ⟨"fetching", 0, none⟩,
          ⟨"fetching", 50, some (EventData.preview env.previewResult)⟩,
          ⟨"analyzing", 0, none⟩,
          ⟨"analyzing", 100,
            some (EventData.report (analyzeUser env.analyzeEnv (cleanName username) "1").reportData)⟩,
          ⟨"complete", 100,
            some (EventData.report (analyzeUser env.analyzeEnv (cleanName username) "1").reportData)⟩])
    ∧ (env.validateOk = false →
      analyzeUserStream env username =
        [⟨"validation", 0, none⟩, ⟨"error", 0, some (EventData.errMsg "User not found")⟩]) := by
  constructor
  · intro hv
    unfold analyzeUserStream
    rw [if_pos hv]
  · intro hv
    unfold analyzeUserStream
    rw [if_neg (by rw [hv]; exact Bool.false_ne_true)]

/-- A stream environment for an invalid user. -/
def streamEnvBad : StreamEnv := ⟨false, ⟨false, 0, "Unknown", false, 0⟩, envOk⟩

/-- Witness for C8 at concrete environments: the success trace over
`streamEnvOk` and the error trace over `streamEnvBad`. -/
theorem stream_protocol_witness :
    analyzeUserStream streamEnvOk "alice" =
      [⟨"validation", 0, none⟩, ⟨"validation", 100, none⟩, ⟨"fetching", 0, none⟩,
        ⟨"fetching", 50, some (EventData.preview streamEnvOk.previewResult)⟩,
        ⟨"analyzing", 0, none⟩,
        ⟨"analyzing", 100,
          some (EventData.report (analyzeUser streamEnvOk.analyzeEnv (cleanName "alice") "1").reportData)⟩,
        ⟨"complete", 100,
          some (EventData.report (analyzeUser streamEnvOk.analyzeEnv (cleanName "alice") "1").reportData)⟩]
    ∧ analyzeUserStream streamEnvBad "alice" =
        [⟨"validation", 0, none⟩, ⟨"error", 0, some (EventData.errMsg "User not found")⟩] :=
  ⟨(stream_protocol streamEnvOk "alice").1 rfl, (stream_protocol streamEnvBad "alice").2 rfl⟩

/-!
## Batch analysis (`analyzeBatch`)

A `for` loop over the usernames: each iteration awaits `analyzeUser`,
pushes the result, then awaits a fixed 2000 ms delay.  Since `analyzeUser`
never rejects (C1 — its `catch` returns the failure as data), the loop's
own `catch` is unreachable: every username produces exactly one Analysis,
in order.  The denotation is the result list together with the trace of
await actions, which records the strict sequential interleaving of
analyses and sleeps.
-/

/-- One awaited action of the batch loop. -/
inductive BatchAction
  | analyze (username : String)
  | sleep (ms : Nat)
deriving DecidableEq

/-- `analyzeBatch(usernames)`: results plus the ordered action trace.  The
server oracle is per-username (`envOf`). -/
def analyzeBatch (envOf : String → AnalyzeEnv) (usernames : List String) :
    List Analysis × List BatchAction :=
  match usernames with
  | [] => ([], [])
  | u :: rest =>
    let a := analyzeUser (envOf u) u "1"
    let r := analyzeBatch envOf rest
    (a :: r.1, BatchAction.analyze u :: BatchAction.sleep 2000 :: r.2)

/-- **C9.** `analyzeBatch` processes the usernames strictly sequentially —
its action trace analyses each username in input order with a fixed 2000 ms
sleep after each analysis (hence a 2-second delay between consecutive
analyses) — it continues past individual failures (a failed analysis is
data, never an exception: every call resolves), and it returns exactly the
analyses that resolved, one per username, in order. -/
theorem analyzeBatch_sequential (envOf : String → AnalyzeEnv) (usernames : List String) :
    (analyzeBatch envOf usernames).1 = usernames.map (fun u => analyzeUser (envOf u) u "1")
    ∧ (analyzeBatch envOf usernames).2 =
        usernames.flatMap (fun u => [BatchAction.analyze u, BatchAction.sleep 2000]) := by
  induction usernames with
  | nil => exact ⟨rfl, rfl⟩
  | cons u rest ih =>
    refine ⟨?_, ?_⟩
    · simp only [analyzeBatch, List.map_cons]
      rw [ih.1]
    · simp only [analyzeBatch, List.flatMap_cons]
      rw [ih.2]
      rfl
